import Mathlib

/-!
Shallow embedding of `jedi/evaluate/compiled/access.py`: the safe-introspection
layer over opaque Python runtime values.  Python objects are modelled as
entries of an immutable heap indexed by `Nat` object ids (`id(obj)`); the
evaluator's per-session state (the `compiled_cache` identity cache plus a
fresh-id counter used to give wrapper objects their own identity) is threaded
explicitly through every operation that constructs wrappers.
-/

/-- Runtime type tags for the Python types the module's whitelists mention.
`unicodeT` is kept distinct from `strT`, mirroring the source's use of the
`unicode` compatibility name next to `str`; `otherT n` stands for any other
(e.g. user-defined) class. -/
inductive PyType where
  | strT | unicodeT | listT | tupleT | bytesT | bytearrayT | dictT
  | floatT | intT | sliceT | ellipsisT | noneT
  | typeT | moduleT
  | functionT | builtinFunctionT | methodT
  | getsetDescriptorT | memberDescriptorT | methodDescriptorT
  | wrapperDescriptorT | classMethodDescriptorT
  | staticmethodT | classmethodT | propertyT
  | otherT (n : Nat)
deriving DecidableEq, Repr

/-- Python exceptions the embedded operations can raise. -/
inductive PyError where
  | attributeError | valueError | keyError | indexError
deriving DecidableEq, Repr

/-- A `DirectObjectAccess` wrapper object.  `aid` is the wrapper's own runtime
identity (wrappers are objects too, and the cache-idempotence claims are about
wrapper identity); `obj` is the id of the wrapped underlying value. -/
structure Access where
  aid : Nat
  obj : Nat
deriving DecidableEq, Repr

/-- The evaluator's per-session state: `compiled_cache` maps `id(obj)` to the
pair `(result, obj)` stored by the caching decorator (the second component is
the strong reference to the underlying value, which in this model is just its
id), and `nextId` is the allocator for fresh wrapper identities. -/
structure EvalState where
  compiled_cache : List (Nat × Access × Nat)
  nextId : Nat
deriving DecidableEq, Repr

/-- The empty session state. -/
def st0 : EvalState := ⟨[], 0⟩

/-- Allocation of a new `DirectObjectAccess(evaluator, obj)` wrapper: the
constructor call performed by `create_access` on a cache miss. -/
def mkDirectObjectAccess (st : EvalState) (objId : Nat) : Access × EvalState :=
  (⟨st.nextId, objId⟩, { st with nextId := st.nextId + 1 })

/-- The `compiled_objects_cache` decorator: looks the object's id up in the
evaluator's cache; on a hit returns the stored result unchanged, on a miss
runs `func` and stores `(result, obj)` under the id. -/
def compiled_objects_cache (func : EvalState → Nat → Access × EvalState)
    (st : EvalState) (objId : Nat) : Access × EvalState :=
  match st.compiled_cache.lookup objId with
  | some (result, _) => (result, st)
  | none =>
      let p := func st objId
      (p.1, { p.2 with compiled_cache := (objId, p.1, objId) :: p.2.compiled_cache })

/-- `create_access`, i.e. `compiled_objects_cache('compiled_cache')` applied to
the plain `DirectObjectAccess` constructor. -/
def create_access : EvalState → Nat → Access × EvalState :=
  compiled_objects_cache mkDirectObjectAccess

/-- One Python runtime value, as far as the module's operations inspect it.
Attribute tables are association lists from names to object ids;
`staticAttrs` additionally carries the `is_get_descriptor` flag returned by
static resolution.  `moduleAttr` distinguishes a missing `__module__`
attribute (`none`), a `__module__` that is the value `None` (`some none`) and
a dotted-string `__module__` (`some (some s)`).  `getitem` and `iterElems`
are the host's subscript and iteration behaviour for the value (`iterElems i`
is the element the iterator yields at position `i`, `none` once exhausted);
they may encode arbitrary user logic, which the safety claims say must never
be invoked for non-whitelisted types. -/
structure PyObj where
  ty : PyType
  staticAttrs : List (String × Nat × Bool) := []
  attrs : List (String × Nat) := []
  getitem : Nat → Option Nat := fun _ => none
  iterElems : Nat → Option Nat := fun _ => none
  cls : Option Nat := none
  mro : Option (List Nat) := none
  objclass : Option Nat := none
  moduleAttr : Option (Option String) := none
  nameAttr : Option String := none
  dictVals : List Nat := []
  docAttr : Option String := none

/-- The host environment: the immutable heap of Python objects, the import
system, the distinguished `builtins` module and `None` singleton, and the
host-native operator semantics used by `execute_operation` and `negate`
(host-level faults of those native operators are outside this model). -/
structure Env where
  heap : Nat → PyObj
  importMod : String → Option Nat
  builtinsId : Nat
  noneId : Nat
  applyOp : String → Nat → Nat → Nat
  negOp : Nat → Nat

/-- Model of `inspect.isclass`: the value's runtime type is the metaclass
`type` (metaclasses other than `type` itself are collapsed onto `typeT`). -/
def inspect_isclass (o : PyObj) : Bool := o.ty == .typeT

/-- Model of `inspect.ismodule`. -/
def inspect_ismodule (o : PyObj) : Bool := o.ty == .moduleT

/-- Model of `inspect.isbuiltin`. -/
def inspect_isbuiltin (o : PyObj) : Bool := o.ty == .builtinFunctionT

/-- Model of `inspect.ismethod`. -/
def inspect_ismethod (o : PyObj) : Bool := o.ty == .methodT

/-- Model of `inspect.isfunction`. -/
def inspect_isfunction (o : PyObj) : Bool := o.ty == .functionT

/-- Model of `inspect.ismethoddescriptor` restricted to the descriptor type
tags this embedding distinguishes. -/
def inspect_ismethoddescriptor (o : PyObj) : Bool :=
  o.ty == .methodDescriptorT || o.ty == .classMethodDescriptorT

/-- Model of `inspect.getdoc`: the extracted docstring, or `none`. -/
def inspect_getdoc (o : PyObj) : Option String := o.docAttr

/-- Modelled from the spec: `getattr_static` (module
`jedi.evaluate.compiled.getattr_static`, not present under `src/`) resolves
an attribute through the host's static resolution protocol without invoking
computed-attribute logic and returns the pair of the declared implementation
and the flag marking whether normal resolution would invoke a get-on-access
handler, or raises `AttributeError` when the attribute does not exist. -/
def getattr_static (env : Env) (objId : Nat) (name : String) :
    Except PyError (Nat × Bool) :=
  match (env.heap objId).staticAttrs.lookup name with
  | some r => .ok r
  | none => .error .attributeError

/-- The `ALLOWED_DESCRIPTOR_ACCESS` whitelist of descriptor kinds whose
get-handlers are known not to execute arbitrary code. -/
def ALLOWED_DESCRIPTOR_ACCESS : List PyType :=
  [.functionT, .getsetDescriptorT, .memberDescriptorT, .methodDescriptorT,
   .wrapperDescriptorT, .classMethodDescriptorT, .staticmethodT, .classmethodT]

/-- The `_OPERATORS` table: `'+'` and `'-'` plus the comparison operators,
mapped to host-native binary operations (applied through `Env.applyOp`). -/
def _OPERATORS : List String :=
  ["+", "-", "==", "!=", "is", "is not", "<", "<=", ">", ">="]

/-- Pure description of the element prefix that the `py__iter__list` loop
reads from an iteration stream starting at position `i`: stop when the stream
is exhausted, and break (discarding the element just read) once the position
exceeds 20. -/
def streamTake (f : Nat → Option Nat) (i : Nat) : List Nat :=
  match f i with
  | none => []
  | some x => if 20 < i then [] else x :: streamTake f (i + 1)
termination_by 21 - i
decreasing_by omega

namespace DirectObjectAccess

/-- The `self._create_access(obj)` helper: delegates to `create_access` with
the evaluator state. -/
def _create_access (st : EvalState) (objId : Nat) : Access × EvalState :=
  create_access st objId

/-- Threads `_create_access` over a list of object ids left to right, as a
list comprehension or generator over `self._create_access(...)` does. -/
def mapCreateAccess : EvalState → List Nat → List Access × EvalState
  | st, [] => ([], st)
  | st, o :: rest =>
      let p := _create_access st o
      let q := mapCreateAccess p.2 rest
      (p.1 :: q.1, q.2)

/-- `is_allowed_getattr`: statically resolve the attribute (re-raising the
`AttributeError` if it does not exist); refuse (return `false`) exactly when
the resolved attribute is a get-descriptor whose type is outside
`ALLOWED_DESCRIPTOR_ACCESS`; otherwise allow (return `true`). -/
def is_allowed_getattr (env : Env) (objId : Nat) (name : String) :
    Except PyError Bool :=
  match getattr_static env objId name with
  | .error e => .error e
  | .ok (attr, is_get_descriptor) =>
      if is_get_descriptor = true
          ∧ (env.heap attr).ty ∉ ALLOWED_DESCRIPTOR_ACCESS then
        .ok false
      else
        .ok true

/-- Result of the `getattr` operation: either a wrapped access object, or a
raw unwrapped host value returned directly (the source returns the bare
`None` in its fallback branch). -/
inductive AttrResult where
  | wrapped (a : Access)
  | rawObj (o : Nat)
deriving DecidableEq, Repr

/-- `getattr(name, default=_sentinel)`: wrap the host-native attribute read;
on `AttributeError` re-raise when no default was supplied, and otherwise
return the bare `None` value.  `default = none` models the `_sentinel`
(no default supplied). -/
def getattr (env : Env) (st : EvalState) (objId : Nat) (name : String)
    (default : Option Nat) : Except PyError (AttrResult × EvalState) :=
  match (env.heap objId).attrs.lookup name with
  | some v =>
      let p := _create_access st v
      .ok (.wrapped p.1, p.2)
  | none =>
      match default with
      | none => .error .attributeError
      | some _ => .ok (.rawObj env.noneId, st)

/-- `get_safe_value(default=_sentinel)`: return the underlying value itself
when its runtime type is in the literal whitelist; otherwise raise
`ValueError` when no default was supplied; otherwise fall off the end of the
function, i.e. return the `None` value. -/
def get_safe_value (env : Env) (objId : Nat) (default : Option Nat) :
    Except PyError Nat :=
  if (env.heap objId).ty ∈ [PyType.floatT, .intT, .strT, .unicodeT, .sliceT,
      .ellipsisT] then
    .ok objId
  else match default with
    | none => .error .valueError
    | some _ => .ok env.noneId

/-- `py__doc__(include_call_signature=False)`: `inspect.getdoc(self._obj) or
''`.  The flag is accepted and ignored by the source. -/
def py__doc__ (env : Env) (objId : Nat) (include_call_signature : Bool) :
    String :=
  match inspect_getdoc (env.heap objId) with
  | none => ""
  | some s => if s = "" then "" else s

/-- The loop body of `py__iter__list` over `enumerate(self._obj)`: read the
stream element at position `i`; stop on exhaustion; break once `i > 20`;
otherwise wrap the element through `_create_access` and continue. -/
def iterCollect (f : Nat → Option Nat) (st : EvalState) (i : Nat) :
    List Access × EvalState :=
  match f i with
  | none => ([], st)
  | some x =>
      if 20 < i then ([], st)
      else
        let p := _create_access st x
        let q := iterCollect f p.2 (i + 1)
        (p.1 :: q.1, q.2)
termination_by 21 - i
decreasing_by omega

/-- `py__getitem__(index)`: refuse (return the bare `None`) unless the exact
runtime type is one of the built-in container types; otherwise perform the
host subscript read (propagating its fault) and wrap the result. -/
def py__getitem__ (env : Env) (st : EvalState) (objId : Nat) (index : Nat) :
    Except PyError (Option Access × EvalState) :=
  if (env.heap objId).ty ∉ [PyType.strT, .listT, .tupleT, .unicodeT, .bytesT,
      .bytearrayT, .dictT] then
    .ok (none, st)
  else
    match (env.heap objId).getitem index with
    | none => .error .indexError
    | some v =>
        let p := _create_access st v
        .ok (some p.1, p.2)

/-- `py__iter__list()`: return `[]` unless the exact runtime type is one of
the built-in container types; otherwise collect at most the first 21 wrapped
elements of the iteration. -/
def py__iter__list (env : Env) (st : EvalState) (objId : Nat) :
    List Access × EvalState :=
  if (env.heap objId).ty ∉ [PyType.strT, .listT, .tupleT, .unicodeT, .bytesT,
      .bytearrayT, .dictT] then
    ([], st)
  else
    iterCollect (env.heap objId).iterElems st 0

/-- `py__class__()`: wrap `self._obj.__class__` (raising `AttributeError` for
the exotic values that lack a class attribute). -/
def py__class__ (env : Env) (st : EvalState) (objId : Nat) :
    Except PyError (Access × EvalState) :=
  match (env.heap objId).cls with
  | none => .error .attributeError
  | some c => .ok (_create_access st c)

/-- `py__mro__accesses()`: wrap every entry of `self._obj.__mro__[1:]`; a
value without an `__mro__` attribute raises `AttributeError`. -/
def py__mro__accesses (env : Env) (st : EvalState) (objId : Nat) :
    Except PyError (List Access × EvalState) :=
  match (env.heap objId).mro with
  | none => .error .attributeError
  | some l => .ok (mapCreateAccess st (l.drop 1))

/-- `is_class()`: `inspect.isclass(self._obj)`. -/
def is_class (env : Env) (objId : Nat) : Bool :=
  inspect_isclass (env.heap objId)

/-- `get_api_type()`: the ordered four-way classification into `'class'`,
`'module'`, `'function'` and `'instance'`. -/
def get_api_type (env : Env) (objId : Nat) : String :=
  let obj := env.heap objId
  if is_class env objId then "class"
  else if inspect_ismodule obj then "module"
  else if inspect_isbuiltin obj || inspect_ismethod obj
      || inspect_ismethoddescriptor obj || inspect_isfunction obj then
    "function"
  else "instance"

/-- `_get_objects_path()`: the generator `get()` yields the value, then its
`__objclass__` if present (rebinding `obj` to it), then the owning module:
nothing further when `__module__` is absent and `obj` is itself a module;
`builtins` when `__module__` is absent on a non-module, is `None`, or names
a module that fails to import; the imported module otherwise.  The collected
chain is returned reversed. -/
def _get_objects_path (env : Env) (objId : Nat) : List Nat :=
  let step1 : List Nat × Nat :=
    match (env.heap objId).objclass with
    | none => ([objId], objId)
    | some c => ([objId, c], c)
  let rest : List Nat :=
    match (env.heap step1.2).moduleAttr with
    | none =>
        if inspect_ismodule (env.heap step1.2) then [] else [env.builtinsId]
    | some none => [env.builtinsId]
    | some (some m) =>
        match env.importMod m with
        | some modId => [modId]
        | none => [env.builtinsId]
  (step1.1 ++ rest).reverse

/-- The eager name extraction `[(o.__name__, o) for o in path]`: `none` as
soon as any object in the path lacks a `__name__` attribute. -/
def collectNames (env : Env) : List Nat → Option (List String)
  | [] => some []
  | o :: rest =>
      match (env.heap o).nameAttr with
      | none => none
      | some n => (collectNames env rest).map (n :: ·)

/-- `get_access_path_tuples()`: pair every object of `_get_objects_path` with
its `__name__`, returning `[]` if any of them lacks one, and wrap each object
through `_create_access`. -/
def get_access_path_tuples (env : Env) (st : EvalState) (objId : Nat) :
    List (String × Access) × EvalState :=
  let path := _get_objects_path env objId
  match collectNames env path with
  | none => ([], st)
  | some names =>
      let p := mapCreateAccess st path
      (names.zip p.1, p.2)

/-- `execute_operation(other, operator)`: look the operator token up in
`_OPERATORS` (an unknown token is a `KeyError`), apply the host-native binary
operation and wrap the result. -/
def execute_operation (env : Env) (st : EvalState) (selfId otherId : Nat)
    (operator : String) : Except PyError (Access × EvalState) :=
  if operator ∈ _OPERATORS then
    .ok (_create_access st (env.applyOp operator selfId otherId))
  else
    .error .keyError

/-- `negate()`: wrap the host-native unary negation of the value. -/
def negate (env : Env) (st : EvalState) (objId : Nat) : Access × EvalState :=
  _create_access st (env.negOp objId)

/-- `dict_values()`: wrap every element of `self._obj.values()`. -/
def dict_values (env : Env) (st : EvalState) (objId : Nat) :
    List Access × EvalState :=
  mapCreateAccess st (env.heap objId).dictVals

end DirectObjectAccess

/-- Well-formedness of the session cache: every stored entry keyed by an
object id holds a wrapper for exactly that id together with the strong
reference to the same id, and no id is cached twice.  This is the "at most
one wrapped-access object per distinct live value identity" invariant. -/
def CacheWF (st : EvalState) : Prop :=
  (∀ e ∈ st.compiled_cache, e.2.1.obj = e.1 ∧ e.2.2 = e.1) ∧
  (st.compiled_cache.map Prod.fst).Nodup

/-- The wrapper `a` is registered in the cache of state `st` under the id of
the object it wraps. -/
def InCache (st : EvalState) (a : Access) : Prop :=
  (a.obj, a, a.obj) ∈ st.compiled_cache

/-- A concrete host heap used to evaluate the embedded operations: object 0
is `None`, 1 is the `builtins` module, 2 a plain named module, 3 an `int`,
4 a `list` whose iterator never ends, 5 a user-class instance with a plain
method, a `property` and a plain data member statically resolvable on it,
6 a `property` object, 7 a named function whose `__module__` names an
unimportable module, 8 and 9 further plain objects. -/
def exHeap : Nat → PyObj := fun n =>
  match n with
  | 0 => { ty := .noneT }
  | 1 => { ty := .moduleT, nameAttr := some "builtins" }
  | 2 => { ty := .moduleT, nameAttr := some "m" }
  | 3 => { ty := .intT }
  | 4 => { ty := .listT, iterElems := fun _ => some 9 }
  | 5 => { ty := .otherT 0,
           staticAttrs := [("meth", 7, true), ("prop", 6, true),
                           ("data", 8, false)],
           attrs := [("a", 3)],
           getitem := fun _ => some 9,
           iterElems := fun _ => some 9 }
  | 6 => { ty := .propertyT }
  | 7 => { ty := .functionT, nameAttr := some "f",
           moduleAttr := some (some "nope") }
  | 8 => { ty := .otherT 1 }
  | 9 => { ty := .otherT 2 }
  | _ => { ty := .otherT 99 }

/-- A concrete host environment over `exHeap` in which nothing is importable
(`__import__` always fails). -/
def exEnv : Env :=
  { heap := exHeap
    importMod := fun _ => none
    builtinsId := 1
    noneId := 0
    applyOp := fun _ a _ => a
    negOp := fun o => o }

/-- The environment with the object `o`'s own subscript logic replaced by
`g`: everything else about the heap is unchanged. -/
def withGetitem (env : Env) (o : Nat) (g : Nat → Option Nat) : Env :=
  { env with heap := Function.update env.heap o ({ env.heap o with getitem := g }) }

/-- The environment with the object `o`'s own iteration logic replaced by
`f`: everything else about the heap is unchanged. -/
def withIterElems (env : Env) (o : Nat) (f : Nat → Option Nat) : Env :=
  { env with heap := Function.update env.heap o ({ env.heap o with iterElems := f }) }

/-- A successful association-list lookup exhibits a member of the list. -/
theorem lookup_mem {k : Nat} {v : Access × Nat} :
    ∀ {l : List (Nat × Access × Nat)}, l.lookup k = some v → (k, v) ∈ l := by
  intro l
  induction l with
  | nil => intro h; simp [List.lookup] at h
  | cons hd tl ih =>
      obtain ⟨k', v'⟩ := hd
      intro h
      simp only [List.lookup] at h
      by_cases hk : k = k'
      · subst hk
        simp only [beq_self_eq_true] at h
        cases h
        exact List.mem_cons_self _ _
      · rw [beq_false_of_ne hk] at h
        exact List.mem_cons_of_mem _ (ih h)

/-- A failed association-list lookup means the key is absent. -/
theorem lookup_none_not_mem {k : Nat} :
    ∀ {l : List (Nat × Access × Nat)}, l.lookup k = none →
      k ∉ l.map Prod.fst := by
  intro l
  induction l with
  | nil => intro _ h; simp at h
  | cons hd tl ih =>
      obtain ⟨k', v'⟩ := hd
      intro h hm
      simp only [List.lookup] at h
      by_cases hk : k = k'
      · subst hk; simp at h
      · rw [beq_false_of_ne hk] at h
        simp only [List.map_cons, List.mem_cons] at hm
        rcases hm with hm | hm
        · exact hk hm
        · exact ih h hm

/-- In a list with duplicate-free keys, a key determines its stored value. -/
theorem keys_nodup_unique {l : List (Nat × Access × Nat)}
    (hnd : (l.map Prod.fst).Nodup) {k : Nat} {v w : Access × Nat}
    (hv : (k, v) ∈ l) (hw : (k, w) ∈ l) : v = w := by
  induction l with
  | nil => cases hv
  | cons hd tl ih =>
      rw [List.map_cons, List.nodup_cons] at hnd
      rcases List.mem_cons.mp hv with hv1 | hv1
      · rcases List.mem_cons.mp hw with hw1 | hw1
        · rw [← hv1] at hw1; exact (Prod.mk.injEq _ _ _ _ ▸ congrArg Prod.snd hw1.symm)
        · exfalso
          apply hnd.1
          rw [← hv1]
          exact List.mem_map.mpr ⟨(k, w), hw1, rfl⟩
      · rcases List.mem_cons.mp hw with hw1 | hw1
        · exfalso
          apply hnd.1
          rw [← hw1]
          exact List.mem_map.mpr ⟨(k, v), hv1, rfl⟩
        · exact ih hnd.2 hv1 hw1

/-- Case analysis on `create_access`: a cache hit returns the stored wrapper
and leaves the state untouched; a miss allocates a fresh wrapper and
prepends the entry. -/
theorem create_access_cases (st : EvalState) (o : Nat) :
    (∃ a r, st.compiled_cache.lookup o = some (a, r) ∧
        create_access st o = (a, st)) ∨
    (st.compiled_cache.lookup o = none ∧
        create_access st o =
          (⟨st.nextId, o⟩,
           ⟨(o, ⟨st.nextId, o⟩, o) :: st.compiled_cache, st.nextId + 1⟩)) := by
  unfold create_access compiled_objects_cache mkDirectObjectAccess
  cases h : st.compiled_cache.lookup o with
  | none => right; exact ⟨rfl, rfl⟩
  | some p => left; exact ⟨p.1, p.2, rfl, rfl⟩

/-- On a well-formed cache, the wrapper returned by `create_access` wraps
exactly the requested object. -/
theorem create_access_obj {st : EvalState} (h : CacheWF st) (o : Nat) :
    ((create_access st o).1).obj = o := by
  rcases create_access_cases st o with ⟨a, r, hl, he⟩ | ⟨hl, he⟩
  · rw [he]
    exact ((h.1 _ (lookup_mem hl)).1 : a.obj = o)
  · rw [he]

/-- `create_access` preserves cache well-formedness. -/
theorem create_access_wf {st : EvalState} (h : CacheWF st) (o : Nat) :
    CacheWF (create_access st o).2 := by
  rcases create_access_cases st o with ⟨a, r, hl, he⟩ | ⟨hl, he⟩
  · rw [he]; exact h
  · rw [he]
    constructor
    · intro e he'
      rcases List.mem_cons.mp he' with he1 | he1
      · rw [he1]; exact ⟨rfl, rfl⟩
      · exact h.1 e he1
    · rw [List.map_cons, List.nodup_cons]
      exact ⟨lookup_none_not_mem hl, h.2⟩

/-- `create_access` only ever adds cache entries. -/
theorem create_access_mono {st : EvalState} {e : Nat × Access × Nat}
    (hm : e ∈ st.compiled_cache) (o : Nat) :
    e ∈ (create_access st o).2.compiled_cache := by
  rcases create_access_cases st o with ⟨a, r, _, he⟩ | ⟨_, he⟩
  · rw [he]; exact hm
  · rw [he]; exact List.mem_cons_of_mem _ hm

/-- On a well-formed cache, the wrapper returned by `create_access` is
registered in the resulting cache. -/
theorem create_access_mem {st : EvalState} (h : CacheWF st) (o : Nat) :
    InCache (create_access st o).2 (create_access st o).1 := by
  rcases create_access_cases st o with ⟨a, r, hl, he⟩ | ⟨hl, he⟩
  · rw [he]
    have hmem := lookup_mem hl
    obtain ⟨h1, h2⟩ := h.1 _ hmem
    simp only at h1 h2
    unfold InCache
    rw [h1]
    rw [h2] at hmem
    exact hmem
  · rw [he]
    unfold InCache
    exact List.mem_cons_self _ _

/-- `mapCreateAccess` preserves cache well-formedness. -/
theorem mapCreateAccess_wf {st : EvalState} (h : CacheWF st) :
    ∀ l : List Nat, CacheWF (DirectObjectAccess.mapCreateAccess st l).2 := by
  intro l
  induction l generalizing st h with
  | nil => exact h
  | cons o rest ih =>
      simp only [DirectObjectAccess.mapCreateAccess,
        DirectObjectAccess._create_access]
      exact ih (create_access_wf h o)

/-- `mapCreateAccess` only ever adds cache entries. -/
theorem mapCreateAccess_mono {e : Nat × Access × Nat} :
    ∀ (l : List Nat) (st : EvalState), e ∈ st.compiled_cache →
      e ∈ (DirectObjectAccess.mapCreateAccess st l).2.compiled_cache := by
  intro l
  induction l with
  | nil => intro st hm; exact hm
  | cons o rest ih =>
      intro st hm
      simp only [DirectObjectAccess.mapCreateAccess,
        DirectObjectAccess._create_access]
      exact ih _ (create_access_mono hm o)

/-- On a well-formed cache, the wrappers produced by `mapCreateAccess` wrap
exactly the given objects, in order. -/
theorem mapCreateAccess_objs :
    ∀ (l : List Nat) (st : EvalState), CacheWF st →
      ((DirectObjectAccess.mapCreateAccess st l).1).map Access.obj = l := by
  intro l
  induction l with
  | nil => intro st _; rfl
  | cons o rest ih =>
      intro st h
      simp only [DirectObjectAccess.mapCreateAccess,
        DirectObjectAccess._create_access, List.map_cons]
      rw [create_access_obj h o, ih _ (create_access_wf h o)]

/-- On a well-formed cache, every wrapper produced by `mapCreateAccess` is
registered in the resulting cache. -/
theorem mapCreateAccess_routed :
    ∀ (l : List Nat) (st : EvalState), CacheWF st →
      ∀ a ∈ (DirectObjectAccess.mapCreateAccess st l).1,
        InCache (DirectObjectAccess.mapCreateAccess st l).2 a := by
  intro l
  induction l with
  | nil => intro st _ a ha; cases ha
  | cons o rest ih =>
      intro st h a ha
      simp only [DirectObjectAccess.mapCreateAccess,
        DirectObjectAccess._create_access] at ha ⊢
      rcases List.mem_cons.mp ha with ha1 | ha1
      · rw [ha1]
        have hm := create_access_mem h o
        have hobj := create_access_obj h o
        unfold InCache at hm ⊢
        exact mapCreateAccess_mono _ _ hm
      · exact ih _ (create_access_wf h o) a ha1

/-- The iteration loop of `py__iter__list` is the stream prefix of
`streamTake` wrapped element by element: interleaving the wrapping with the
stream reads does not change either the wrappers or the final state. -/
theorem iterCollect_eq_mapCreate (f : Nat → Option Nat) :
    ∀ (k i : Nat), 21 - i ≤ k → ∀ st : EvalState,
      DirectObjectAccess.iterCollect f st i =
        DirectObjectAccess.mapCreateAccess st (streamTake f i) := by
  intro k
  induction k with
  | zero =>
      intro i hi st
      rw [DirectObjectAccess.iterCollect, streamTake]
      cases hf : f i with
      | none => rfl
      | some x =>
          have h20 : 20 < i := by omega
          simp [h20, DirectObjectAccess.mapCreateAccess]
  | succ k ih =>
      intro i hi st
      rw [DirectObjectAccess.iterCollect, streamTake]
      cases hf : f i with
      | none => rfl
      | some x =>
          by_cases hib : 20 < i
          · simp [hib, DirectObjectAccess.mapCreateAccess]
          · simp only [hib, if_neg, ite_false,
              DirectObjectAccess.mapCreateAccess]
            rw [ih (i + 1) (by omega)]

/-- Under a stream that yields an element at every position up to 21, the
loop prefix starting at position `i ≤ 21` has exactly `21 - i` elements and
returns the stream's elements in order. -/
theorem streamTake_full {f : Nat → Option Nat}
    (hf : ∀ j, j ≤ 21 → (f j).isSome) :
    ∀ (k i : Nat), 21 - i ≤ k → i ≤ 21 →
      (streamTake f i).length = 21 - i ∧
      ∀ j, (streamTake f i).get? j = if i + j < 21 then f (i + j) else none := by
  intro k
  induction k with
  | zero =>
      intro i hk hi
      have hi21 : i = 21 := by omega
      subst hi21
      obtain ⟨x, hx⟩ := Option.isSome_iff_exists.mp (hf 21 (by omega))
      rw [streamTake, hx]
      simp
  | succ k ih =>
      intro i hk hi
      by_cases hi21 : i = 21
      · subst hi21
        obtain ⟨x, hx⟩ := Option.isSome_iff_exists.mp (hf 21 (by omega))
        rw [streamTake, hx]
        simp
      · obtain ⟨x, hx⟩ := Option.isSome_iff_exists.mp (hf i (by omega))
        rw [streamTake, hx]
        have hib : ¬ 20 < i := by omega
        simp only [hib, ite_false]
        obtain ⟨ihl, ihg⟩ := ih (i + 1) (by omega) (by omega)
        constructor
        · simp only [List.length_cons, ihl]; omega
        · intro j
          cases j with
          | zero =>
              simp only [List.get?]
              have : i + 0 < 21 := by omega
              rw [if_pos this]
              rw [Nat.add_zero, hx]
          | succ j =>
              simp only [List.get?]
              rw [ihg j]
              have harith : i + 1 + j = i + (j + 1) := by omega
              rw [harith]

/-- The empty session state has a well-formed cache. -/
theorem cacheWF_st0 : CacheWF st0 := by
  constructor
  · intro e he
    simp [st0] at he
  · simp [st0]

/-- C6: calling `create_access` (the cached `get_or_create`) twice on the
same object id returns the identical wrapper both times and leaves the
session state untouched on the second call: the second call is a pure cache
hit that constructs nothing new. -/
theorem create_access_idempotent (st : EvalState) (o : Nat) :
    create_access (create_access st o).2 o = create_access st o := by
  rcases create_access_cases st o with ⟨a, r, hl, he⟩ | ⟨hl, he⟩ <;> rw [he]
  · show create_access st o = (a, st)
    unfold create_access compiled_objects_cache
    rw [hl]
  · show create_access _ o = _
    unfold create_access compiled_objects_cache
    simp [List.lookup]

/-- C10: `py__doc__` returns the identical string for both settings of the
`include_call_signature` flag; the flag has no effect on the result. -/
theorem py__doc__flag_independent (env : Env) (o : Nat) (b1 b2 : Bool) :
    DirectObjectAccess.py__doc__ env o b1 =
      DirectObjectAccess.py__doc__ env o b2 := rfl

/-- C1: `is_allowed_getattr` raises `AttributeError` for every attribute
name the static resolution cannot find on the value; when the attribute
exists it returns `true` whenever the attribute is not a get-descriptor or
its statically resolved type is in `ALLOWED_DESCRIPTOR_ACCESS`, and `false`
for every get-descriptor attribute whose type is outside that whitelist. -/
theorem is_allowed_getattr_classifies (env : Env) (o : Nat) (n : String) :
    ((env.heap o).staticAttrs.lookup n = none →
      DirectObjectAccess.is_allowed_getattr env o n = .error .attributeError)
  ∧ (∀ attr d, (env.heap o).staticAttrs.lookup n = some (attr, d) →
      ((d = false ∨ (env.heap attr).ty ∈ ALLOWED_DESCRIPTOR_ACCESS →
        DirectObjectAccess.is_allowed_getattr env o n = .ok true)
      ∧ (d = true → (env.heap attr).ty ∉ ALLOWED_DESCRIPTOR_ACCESS →
        DirectObjectAccess.is_allowed_getattr env o n = .ok false))) := by
  constructor
  · intro h
    unfold DirectObjectAccess.is_allowed_getattr getattr_static
    rw [h]
  · intro attr d h
    constructor
    · intro hcase
      unfold DirectObjectAccess.is_allowed_getattr getattr_static
      rw [h]
      simp only
      rw [if_neg]
      rcases hcase with hd | hmem
      · rw [hd]; simp
      · intro hcontra
        exact hcontra.2 hmem
    · intro hd hnmem
      unfold DirectObjectAccess.is_allowed_getattr getattr_static
      rw [h]
      simp only
      rw [if_pos ⟨hd, hnmem⟩]

/-- Witness for C1 on the concrete heap: a missing name faults, a plain
method and a non-computed data member are allowed, a `property` is
refused. -/
theorem is_allowed_getattr_classifies_witness :
    DirectObjectAccess.is_allowed_getattr exEnv 5 "nothere" =
      .error .attributeError
  ∧ DirectObjectAccess.is_allowed_getattr exEnv 5 "meth" = .ok true
  ∧ DirectObjectAccess.is_allowed_getattr exEnv 5 "data" = .ok true
  ∧ DirectObjectAccess.is_allowed_getattr exEnv 5 "prop" = .ok false :=
  ⟨(is_allowed_getattr_classifies exEnv 5 "nothere").1 (by decide),
   ((is_allowed_getattr_classifies exEnv 5 "meth").2 7 true (by decide)).1
     (Or.inr (by decide)),
   ((is_allowed_getattr_classifies exEnv 5 "data").2 8 false (by decide)).1
     (Or.inl rfl),
   ((is_allowed_getattr_classifies exEnv 5 "prop").2 6 true (by decide)).2
     rfl (by decide)⟩

/-- C2: on a value whose exact runtime type is outside the container
whitelist, `py__getitem__` returns the absent result and `py__iter__list`
the empty list, with the state untouched; and both results are unchanged
under arbitrary replacement of the value's own subscript and iteration
logic, which is therefore never invoked. -/
theorem non_container_subscript_refused (env : Env) (st : EvalState)
    (o i : Nat)
    (h : (env.heap o).ty ∉ [PyType.strT, .listT, .tupleT, .unicodeT,
      .bytesT, .bytearrayT, .dictT]) :
    DirectObjectAccess.py__getitem__ env st o i = .ok (none, st)
  ∧ DirectObjectAccess.py__iter__list env st o = ([], st)
  ∧ (∀ g, DirectObjectAccess.py__getitem__ (withGetitem env o g) st o i
      = .ok (none, st))
  ∧ (∀ f, DirectObjectAccess.py__iter__list (withIterElems env o f) st o
      = ([], st)) := by
  refine ⟨?_, ?_, ?_, ?_⟩
  · unfold DirectObjectAccess.py__getitem__
    rw [if_pos h]
  · unfold DirectObjectAccess.py__iter__list
    rw [if_pos h]
  · intro g
    unfold DirectObjectAccess.py__getitem__ withGetitem
    rw [if_pos (by simpa [Function.update_same] using h)]
  · intro f
    unfold DirectObjectAccess.py__iter__list withIterElems
    rw [if_pos (by simpa [Function.update_same] using h)]

/-- Witness for C2: the user-class instance at id 5 carries subscript and
iteration logic that would yield elements, yet both operations refuse. -/
theorem non_container_subscript_refused_witness :
    DirectObjectAccess.py__getitem__ exEnv st0 5 0 = .ok (none, st0)
  ∧ DirectObjectAccess.py__iter__list exEnv st0 5 = ([], st0) :=
  ⟨(non_container_subscript_refused exEnv st0 5 0 (by decide)).1,
   (non_container_subscript_refused exEnv st0 5 0 (by decide)).2.1⟩

/-- C3 counterexample: on a non-literal value with the supplied default `7`,
`get_safe_value` returns the `None` value, not the supplied default, so the
claim that the caller-supplied default is returned is false. -/
theorem get_safe_value_default_counterexample :
    DirectObjectAccess.get_safe_value exEnv 5 (some 7) = .ok exEnv.noneId
  ∧ exEnv.noneId ≠ 7 := ⟨rfl, by decide⟩

/-- C3 (amended): `get_safe_value` returns the value itself exactly on the
whitelisted literal types; otherwise it raises `ValueError` when no default
was supplied and returns the `None` value (the default acting only as a
fault-suppressing flag) when one was supplied. -/
theorem get_safe_value_spec (env : Env) (o : Nat) (d : Option Nat) :
    ((env.heap o).ty ∈ [PyType.floatT, .intT, .strT, .unicodeT, .sliceT,
        .ellipsisT] →
      DirectObjectAccess.get_safe_value env o d = .ok o)
  ∧ ((env.heap o).ty ∉ [PyType.floatT, .intT, .strT, .unicodeT, .sliceT,
        .ellipsisT] → d = none →
      DirectObjectAccess.get_safe_value env o d = .error .valueError)
  ∧ ((env.heap o).ty ∉ [PyType.floatT, .intT, .strT, .unicodeT, .sliceT,
        .ellipsisT] → ∀ x, d = some x →
      DirectObjectAccess.get_safe_value env o d = .ok env.noneId) := by
  refine ⟨?_, ?_, ?_⟩
  · intro h
    unfold DirectObjectAccess.get_safe_value
    rw [if_pos h]
  · intro h hd
    unfold DirectObjectAccess.get_safe_value
    rw [if_neg h, hd]
  · intro h x hd
    unfold DirectObjectAccess.get_safe_value
    rw [if_neg h, hd]

/-- Witness for C3 (amended): an `int` is returned as itself; a user-class
instance faults without a default and yields `None` with one. -/
theorem get_safe_value_spec_witness :
    DirectObjectAccess.get_safe_value exEnv 3 none = .ok 3
  ∧ DirectObjectAccess.get_safe_value exEnv 8 none = .error .valueError
  ∧ DirectObjectAccess.get_safe_value exEnv 8 (some 3) = .ok exEnv.noneId :=
  ⟨(get_safe_value_spec exEnv 3 none).1 (by decide),
   (get_safe_value_spec exEnv 8 none).2.1 (by decide) rfl,
   (get_safe_value_spec exEnv 8 (some 3)).2.2 (by decide) 3 rfl⟩

/-- C4 counterexample: reading a missing attribute with the supplied default
`7` returns the bare `None`, not the supplied default, so the claim that the
caller-supplied default is returned is false. -/
theorem getattr_default_counterexample :
    DirectObjectAccess.getattr exEnv st0 5 "nosuch" (some 7) =
      .ok (.rawObj exEnv.noneId, st0)
  ∧ exEnv.noneId ≠ 7 := ⟨rfl, by decide⟩

/-- C4 (amended): `getattr` wraps and returns the host-native attribute read
on success; when the attribute is missing it propagates the fault if no
default was supplied and returns the bare `None` value (the default acting
only as a fault-suppressing flag) when one was supplied. -/
theorem getattr_spec (env : Env) (st : EvalState) (o : Nat) (n : String)
    (d : Option Nat) :
    (∀ v, (env.heap o).attrs.lookup n = some v →
      DirectObjectAccess.getattr env st o n d =
        .ok (.wrapped (create_access st v).1, (create_access st v).2))
  ∧ ((env.heap o).attrs.lookup n = none → d = none →
      DirectObjectAccess.getattr env st o n d = .error .attributeError)
  ∧ ((env.heap o).attrs.lookup n = none → ∀ x, d = some x →
      DirectObjectAccess.getattr env st o n d =
        .ok (.rawObj env.noneId, st)) := by
  refine ⟨?_, ?_, ?_⟩
  · intro v hv
    unfold DirectObjectAccess.getattr DirectObjectAccess._create_access
    rw [hv]
  · intro hn hd
    unfold DirectObjectAccess.getattr
    rw [hn, hd]
  · intro hn x hd
    unfold DirectObjectAccess.getattr
    rw [hn, hd]

/-- Witness for C4 (amended): a present attribute is wrapped, a missing one
faults when no default was supplied. -/
theorem getattr_spec_witness :
    DirectObjectAccess.getattr exEnv st0 5 "a" none =
      .ok (.wrapped (create_access st0 3).1, (create_access st0 3).2)
  ∧ DirectObjectAccess.getattr exEnv st0 5 "absent" none =
      .error .attributeError :=
  ⟨(getattr_spec exEnv st0 5 "a" none).1 3 (by decide),
   (getattr_spec exEnv st0 5 "absent" none).2.1 (by decide) rfl⟩

/-- C5: on a whitelisted-type value whose iteration yields an element at
every position up to 21 (so in particular on unbounded iterables),
`py__iter__list` returns exactly 21 wrapped elements, and they are the
first 21 stream elements in iteration order. -/
theorem py__iter__list_cap (env : Env) (st : EvalState) (o : Nat)
    (hwf : CacheWF st)
    (hty : (env.heap o).ty ∈ [PyType.strT, .listT, .tupleT, .unicodeT,
      .bytesT, .bytearrayT, .dictT])
    (hstream : ∀ j, j ≤ 21 → ((env.heap o).iterElems j).isSome) :
    ((DirectObjectAccess.py__iter__list env st o).1).length = 21
  ∧ ∀ j, j < 21 →
      (((DirectObjectAccess.py__iter__list env st o).1).get? j).map Access.obj
        = (env.heap o).iterElems j := by
  have hrw : DirectObjectAccess.py__iter__list env st o =
      DirectObjectAccess.mapCreateAccess st
        (streamTake (env.heap o).iterElems 0) := by
    unfold DirectObjectAccess.py__iter__list
    rw [if_neg (by simp only [not_not]; exact hty)]
    exact iterCollect_eq_mapCreate _ 21 0 (by omega) st
  obtain ⟨hlen, hget⟩ := streamTake_full hstream 21 0 (by omega) (by omega)
  have hobjs := mapCreateAccess_objs (streamTake (env.heap o).iterElems 0)
    st hwf
  constructor
  · rw [hrw]
    have h1 := congrArg List.length hobjs
    rw [List.length_map] at h1
    rw [h1, hlen]
  · intro j hj
    rw [hrw]
    have h2 : (((DirectObjectAccess.mapCreateAccess st
        (streamTake (env.heap o).iterElems 0)).1).get? j).map Access.obj
        = (((DirectObjectAccess.mapCreateAccess st
        (streamTake (env.heap o).iterElems 0)).1).map Access.obj).get? j :=
      (List.get?_map _ _ _).symm
    rw [h2, hobjs, hget j]
    simp only [Nat.zero_add]
    rw [if_pos (by omega)]

/-- Witness for C5: the list at id 4 iterates for ever, yet exactly 21
wrapped elements come back, each wrapping the stream's element. -/
theorem py__iter__list_cap_witness :
    ((DirectObjectAccess.py__iter__list exEnv st0 4).1).length = 21 :=
  (py__iter__list_cap exEnv st0 4 cacheWF_st0 (by decide)
    (fun _ _ => rfl)).1

/-- C7 counterexample: on the plain module at id 2, `get_api_type` does
return `'module'`, but `py__mro__accesses` raises `AttributeError` (a plain
module has no `__mro__` attribute) instead of returning the empty
sequence the claim states. -/
theorem module_mro_counterexample :
    DirectObjectAccess.get_api_type exEnv 2 = "module"
  ∧ DirectObjectAccess.py__mro__accesses exEnv st0 2 =
      .error .attributeError
  ∧ ∀ r : List Access × EvalState,
      DirectObjectAccess.py__mro__accesses exEnv st0 2 ≠ .ok r := by
  refine ⟨rfl, rfl, fun r h => ?_⟩
  rw [(rfl : DirectObjectAccess.py__mro__accesses exEnv st0 2 =
    Except.error PyError.attributeError)] at h
  cases h

/-- C7 (amended): on a value of module type without an `__mro__` attribute,
`get_api_type` returns `'module'` and `py__mro__accesses` raises
`AttributeError` rather than returning a chain. -/
theorem module_api_type_and_mro (env : Env) (st : EvalState) (o : Nat)
    (hty : (env.heap o).ty = .moduleT) (hmro : (env.heap o).mro = none) :
    DirectObjectAccess.get_api_type env o = "module"
  ∧ DirectObjectAccess.py__mro__accesses env st o =
      .error .attributeError := by
  constructor
  · simp [DirectObjectAccess.get_api_type, DirectObjectAccess.is_class,
      inspect_isclass, inspect_ismodule, hty]
  · unfold DirectObjectAccess.py__mro__accesses
    rw [hmro]

/-- Witness for C7 (amended), on the `builtins` module object at id 1. -/
theorem module_api_type_and_mro_witness :
    DirectObjectAccess.get_api_type exEnv 1 = "module"
  ∧ DirectObjectAccess.py__mro__accesses exEnv st0 1 =
      .error .attributeError :=
  module_api_type_and_mro exEnv st0 1 rfl rfl

/-- C8 counterexample: the function at id 7 declares the unimportable
module `"nope"` as its owner, yet `get_access_path_tuples` returns the
two-entry sequence rooted at the substituted `builtins` namespace rather
than the empty sequence the claim states. -/
theorem access_path_unimportable_counterexample :
    ((DirectObjectAccess.get_access_path_tuples exEnv st0 7).1).map Prod.fst
      = ["builtins", "f"]
  ∧ (DirectObjectAccess.get_access_path_tuples exEnv st0 7).1 ≠ [] := by
  refine ⟨rfl, fun h => ?_⟩
  rw [(rfl : (DirectObjectAccess.get_access_path_tuples exEnv st0 7).1 =
    [("builtins", (⟨0, 1⟩ : Access)), ("f", (⟨1, 7⟩ : Access))])] at h
  cases h

/-- C8 (amended): on a root-level named module (no `__objclass__`, no
`__module__` attribute), `get_access_path_tuples` returns exactly the
single entry pairing the module's name with its wrapper; on a named value
whose declared owning module fails to import, the `builtins` namespace is
substituted as the owner and the result is the two-entry sequence rooted at
it — not the empty sequence. -/
theorem access_path_tuples_spec (env : Env) (st : EvalState) (o : Nat)
    (hwf : CacheWF st) (n : String)
    (hobjclass : (env.heap o).objclass = none)
    (hname : (env.heap o).nameAttr = some n) :
    ((env.heap o).ty = .moduleT → (env.heap o).moduleAttr = none →
      DirectObjectAccess.get_access_path_tuples env st o =
        ([(n, (create_access st o).1)], (create_access st o).2)
      ∧ ((create_access st o).1).obj = o)
  ∧ (∀ m bn, (env.heap o).moduleAttr = some (some m) →
      env.importMod m = none →
      (env.heap env.builtinsId).nameAttr = some bn →
      ((DirectObjectAccess.get_access_path_tuples env st o).1).map Prod.fst
        = [bn, n]
      ∧ ((DirectObjectAccess.get_access_path_tuples env st o).1).map
          (fun p => (p.2).obj) = [env.builtinsId, o]) := by
  constructor
  · intro hty hmod
    have hpath : DirectObjectAccess._get_objects_path env o = [o] := by
      simp [DirectObjectAccess._get_objects_path, hobjclass, hmod,
        inspect_ismodule, hty]
    have hnames : DirectObjectAccess.collectNames env [o] = some [n] := by
      simp [DirectObjectAccess.collectNames, hname]
    have heq : DirectObjectAccess.get_access_path_tuples env st o =
        ([n].zip (DirectObjectAccess.mapCreateAccess st [o]).1,
         (DirectObjectAccess.mapCreateAccess st [o]).2) := by
      unfold DirectObjectAccess.get_access_path_tuples
      rw [hpath]
      simp only [hnames]
    have hmap : DirectObjectAccess.mapCreateAccess st [o] =
        ([(create_access st o).1], (create_access st o).2) := by
      simp [DirectObjectAccess.mapCreateAccess,
        DirectObjectAccess._create_access]
    refine ⟨?_, create_access_obj hwf o⟩
    rw [heq, hmap]
    exact rfl
  · intro m bn hmod himp hbn
    have hpath : DirectObjectAccess._get_objects_path env o =
        [env.builtinsId, o] := by
      simp [DirectObjectAccess._get_objects_path, hobjclass, hmod, himp]
    have hnames : DirectObjectAccess.collectNames env [env.builtinsId, o] =
        some [bn, n] := by
      simp [DirectObjectAccess.collectNames, hbn, hname]
    have heq : DirectObjectAccess.get_access_path_tuples env st o =
        ([bn, n].zip
          (DirectObjectAccess.mapCreateAccess st [env.builtinsId, o]).1,
         (DirectObjectAccess.mapCreateAccess st [env.builtinsId, o]).2) := by
      unfold DirectObjectAccess.get_access_path_tuples
      rw [hpath]
      simp only [hnames]
    have hmap : DirectObjectAccess.mapCreateAccess st [env.builtinsId, o] =
        ([(create_access st env.builtinsId).1,
          (create_access (create_access st env.builtinsId).2 o).1],
         (create_access (create_access st env.builtinsId).2 o).2) := by
      simp [DirectObjectAccess.mapCreateAccess,
        DirectObjectAccess._create_access]
    rw [heq, hmap]
    constructor
    · rfl
    · simp only [List.zip_cons_cons, List.zip_nil_right, List.map_cons,
        List.map_nil]
      rw [create_access_obj hwf env.builtinsId,
        create_access_obj (create_access_wf hwf env.builtinsId) o]

/-- Witness for C8 (amended): applied to the named module at id 2 and to
the function at id 7 whose owning module is unimportable. -/
theorem access_path_tuples_spec_witness :
    DirectObjectAccess.get_access_path_tuples exEnv st0 2 =
      ([("m", (create_access st0 2).1)], (create_access st0 2).2)
  ∧ ((DirectObjectAccess.get_access_path_tuples exEnv st0 7).1).map
      (fun p => (p.2).obj) = [exEnv.builtinsId, 7] :=
  ⟨((access_path_tuples_spec exEnv st0 2 cacheWF_st0 "m" rfl rfl).1
      rfl rfl).1,
   ((access_path_tuples_spec exEnv st0 7 cacheWF_st0 "f" rfl rfl).2
      "nope" "builtins" rfl rfl rfl).2⟩

/-- C9: every operation that produces wrapped values routes each produced
wrapper through `_create_access` and hence through the per-session identity
cache: starting from a well-formed cache, the cache holds at most one
wrapper per distinct value identity (first conjunct), each listed operation
preserves cache well-formedness, and every wrapper such an operation
returns is registered in the resulting cache under the identity of the
value it wraps. -/
theorem ops_route_through_cache (env : Env) (st : EvalState)
    (h : CacheWF st) :
    (∀ k v w, (k, v) ∈ st.compiled_cache → (k, w) ∈ st.compiled_cache →
      v = w)
  ∧ (∀ o i r st', DirectObjectAccess.py__getitem__ env st o i =
        .ok (r, st') → CacheWF st' ∧ ∀ a, r = some a → InCache st' a)
  ∧ (∀ o, CacheWF (DirectObjectAccess.py__iter__list env st o).2
      ∧ ∀ a ∈ (DirectObjectAccess.py__iter__list env st o).1,
          InCache (DirectObjectAccess.py__iter__list env st o).2 a)
  ∧ (∀ o r st', DirectObjectAccess.py__class__ env st o = .ok (r, st') →
      CacheWF st' ∧ InCache st' r)
  ∧ (∀ a b opr r st', DirectObjectAccess.execute_operation env st a b opr =
        .ok (r, st') → CacheWF st' ∧ InCache st' r)
  ∧ (∀ o, CacheWF (DirectObjectAccess.negate env st o).2
      ∧ InCache (DirectObjectAccess.negate env st o).2
          (DirectObjectAccess.negate env st o).1)
  ∧ (∀ o, CacheWF (DirectObjectAccess.dict_values env st o).2
      ∧ ∀ a ∈ (DirectObjectAccess.dict_values env st o).1,
          InCache (DirectObjectAccess.dict_values env st o).2 a)
  ∧ (∀ o r st', DirectObjectAccess.py__mro__accesses env st o =
        .ok (r, st') → CacheWF st' ∧ ∀ a ∈ r, InCache st' a)
  ∧ (∀ o, CacheWF (DirectObjectAccess.get_access_path_tuples env st o).2
      ∧ ∀ p ∈ (DirectObjectAccess.get_access_path_tuples env st o).1,
          InCache (DirectObjectAccess.get_access_path_tuples env st o).2
            p.2)
  ∧ (∀ o nm d r st', DirectObjectAccess.getattr env st o nm d =
        .ok (r, st') → CacheWF st' ∧ ∀ a, r = .wrapped a →
          InCache st' a) := by
  refine ⟨fun k v w hv hw => keys_nodup_unique h.2 hv hw,
    ?_, ?_, ?_, ?_, ?_, ?_, ?_, ?_, ?_⟩
  · intro o i r st' hok
    unfold DirectObjectAccess.py__getitem__
      DirectObjectAccess._create_access at hok
    split at hok
    · simp only [Except.ok.injEq, Prod.mk.injEq] at hok
      obtain ⟨hr, hst⟩ := hok
      subst hst
      exact ⟨h, fun a ha => by rw [← hr] at ha; cases ha⟩
    · split at hok
      · cases hok
      · rename_i v hv
        simp only [Except.ok.injEq, Prod.mk.injEq] at hok
        obtain ⟨hr, hst⟩ := hok
        subst hst
        refine ⟨create_access_wf h v, fun a ha => ?_⟩
        rw [← hr] at ha
        cases ha
        exact create_access_mem h v
  · intro o
    by_cases hc : (env.heap o).ty ∉ [PyType.strT, .listT, .tupleT,
      .unicodeT, .bytesT, .bytearrayT, .dictT]
    · have he : DirectObjectAccess.py__iter__list env st o = ([], st) := by
        unfold DirectObjectAccess.py__iter__list
        rw [if_pos hc]
      rw [he]
      exact ⟨h, fun a ha => by cases ha⟩
    · have he : DirectObjectAccess.py__iter__list env st o =
          DirectObjectAccess.mapCreateAccess st
            (streamTake (env.heap o).iterElems 0) := by
        unfold DirectObjectAccess.py__iter__list
        rw [if_neg hc]
        exact iterCollect_eq_mapCreate _ 21 0 (by omega) st
      rw [he]
      exact ⟨mapCreateAccess_wf h _,
        fun a ha => mapCreateAccess_routed _ st h a ha⟩
  · intro o r st' hok
    unfold DirectObjectAccess.py__class__
      DirectObjectAccess._create_access at hok
    split at hok
    · cases hok
    · rename_i c hc
      simp only [Except.ok.injEq] at hok
      have h1 := congrArg Prod.fst hok
      have h2 := congrArg Prod.snd hok
      simp only at h1 h2
      rw [← h1, ← h2]
      exact ⟨create_access_wf h c, create_access_mem h c⟩
  · intro a b opr r st' hok
    unfold DirectObjectAccess.execute_operation
      DirectObjectAccess._create_access at hok
    split at hok
    · simp only [Except.ok.injEq] at hok
      have h1 := congrArg Prod.fst hok
      have h2 := congrArg Prod.snd hok
      simp only at h1 h2
      rw [← h1, ← h2]
      exact ⟨create_access_wf h _, create_access_mem h _⟩
    · cases hok
  · intro o
    exact ⟨create_access_wf h (env.negOp o), create_access_mem h (env.negOp o)⟩
  · intro o
    exact ⟨mapCreateAccess_wf h _,
      fun a ha => mapCreateAccess_routed _ st h a ha⟩
  · intro o r st' hok
    unfold DirectObjectAccess.py__mro__accesses at hok
    split at hok
    · cases hok
    · rename_i l hl
      simp only [Except.ok.injEq] at hok
      have h1 := congrArg Prod.fst hok
      have h2 := congrArg Prod.snd hok
      simp only at h1 h2
      rw [← h1, ← h2]
      exact ⟨mapCreateAccess_wf h _,
        fun a ha => mapCreateAccess_routed _ st h a ha⟩
  · intro o
    simp only [DirectObjectAccess.get_access_path_tuples]
    split
    · exact ⟨h, fun p hp => by cases hp⟩
    · rename_i names hn
      refine ⟨mapCreateAccess_wf h _, ?_⟩
      intro p hp
      obtain ⟨pn, pa⟩ := p
      have hmem := List.mem_zip hp
      exact mapCreateAccess_routed _ st h pa hmem.2
  · intro o nm d r st' hok
    unfold DirectObjectAccess.getattr
      DirectObjectAccess._create_access at hok
    split at hok
    · rename_i v hv
      simp only [Except.ok.injEq, Prod.mk.injEq] at hok
      obtain ⟨hr, hst⟩ := hok
      subst hst
      refine ⟨create_access_wf h v, fun a ha => ?_⟩
      rw [← hr] at ha
      cases ha
      exact create_access_mem h v
    · split at hok
      · cases hok
      · simp only [Except.ok.injEq, Prod.mk.injEq] at hok
        obtain ⟨hr, hst⟩ := hok
        subst hst
        exact ⟨h, fun a ha => by rw [← hr] at ha; cases ha⟩

/-- Witness for C9 on the concrete environment: `negate` starting from the
empty session state leaves a well-formed cache and registers its wrapper. -/
theorem ops_route_through_cache_witness :
    CacheWF (DirectObjectAccess.negate exEnv st0 3).2
  ∧ InCache (DirectObjectAccess.negate exEnv st0 3).2
      (DirectObjectAccess.negate exEnv st0 3).1 :=
  (ops_route_through_cache exEnv st0 cacheWF_st0).2.2.2.2.2.1 3
